import Mathlib

/-!
Verification development for the spdx-builder scan-and-assemble engine.

The Python sources (`scanner.py`, `sbom.py`, `writer.py`, `datatypes.py`,
`util.py`) are shallowly embedded below.  Python strings are modelled as
Lean `String`, with the Python string primitives (strip, rstrip,
partition, split, startswith, sorted, ...) re-implemented over the
underlying character lists so that everything evaluates inside the
kernel.  The filesystem consumed by the scanner is modelled as a partial
map from path to file content (raw bytes for binary reads, decoded lines
for text reads).  Hashing is embedded concretely: full SHA-1 and SHA-256
over byte lists, exactly as `hashlib` computes them.
-/

/-! ## Python string primitives, modelled over character lists -/

/-- Whitespace characters stripped by Python's `str.strip()` /
`str.rstrip()` with no argument. -/
def isPySpace (c : Char) : Bool :=
  c = ' ' || c = '\t' || c = '\n' || c = '\r' || c = '\x0b' || c = '\x0c'

/-- Drop leading and trailing characters satisfying `p` (Python
`str.strip` over an arbitrary character class). -/
def stripList (p : Char → Bool) (l : List Char) : List Char :=
  ((l.dropWhile p).reverse.dropWhile p).reverse

/-- Drop trailing characters satisfying `p` (Python `str.rstrip`). -/
def rstripList (p : Char → Bool) (l : List Char) : List Char :=
  (l.reverse.dropWhile p).reverse

/-- Python `s.strip()`. -/
def pyStrip (s : String) : String := String.mk (stripList isPySpace s.data)

/-- Python `s.rstrip()`. -/
def pyRstrip (s : String) : String := String.mk (rstripList isPySpace s.data)

/-- Python `s.rstrip(chars)`: drop trailing characters belonging to the
given set. -/
def pyRstripSet (s : String) (cs : List Char) : String :=
  String.mk (rstripList (fun c => cs.contains c) s.data)

/-- Python `s.startswith(t)`. -/
def pyStartsWith (s t : String) : Bool := t.data.isPrefixOf s.data

/-- Python `c in s` for a single character. -/
def pyContainsChar (s : String) (c : Char) : Bool := s.data.contains c

/-- The part of `hay` strictly after the first occurrence of `sep`, or
`none` when `sep` does not occur.  This is the third component of
Python's `str.partition` (which is `""` when the separator is absent). -/
def afterFirst (sep : List Char) : List Char → Option (List Char)
  | [] => if sep.isPrefixOf ([] : List Char) then some [] else none
  | c :: rest =>
    if sep.isPrefixOf (c :: rest) then some ((c :: rest).drop sep.length)
    else afterFirst sep rest

/-- Python `line.partition(sep)[2]`: everything after the first
occurrence of `sep`, and `""` when `sep` is absent (or occurs at the very
end of the line). -/
def pyPartitionAfter (line sep : String) : String :=
  match afterFirst sep.data line.data with
  | some rest => String.mk rest
  | none => ""

/-- Python `"x".split(" ")`: split on every single space, keeping empty
components. -/
def splitOnSpaceAux (cur : List Char) : List Char → List String
  | [] => [String.mk cur.reverse]
  | c :: rest =>
    if c = ' ' then String.mk cur.reverse :: splitOnSpaceAux [] rest
    else splitOnSpaceAux (c :: cur) rest

/-- Python `s.split(" ")`. -/
def pySplitOnSpace (s : String) : List String := splitOnSpaceAux [] s.data

/-! ## Python string ordering and `sorted` -/

/-- Boolean lexicographic comparison of character lists by code point:
exactly the order Python uses to compare and sort strings. -/
def lexLe (a b : List Char) : Bool :=
  match a, b with
  | [], _ => true
  | _ :: _, [] => false
  | x :: xs, y :: ys => if x = y then lexLe xs ys else decide (x < y)

/-- The ordering on strings used by Python's `sorted` and `list.sort`. -/
def pyle (a b : String) : Prop := lexLe a.data b.data = true

instance : DecidableRel pyle := fun a b =>
  inferInstanceAs (Decidable (lexLe a.data b.data = true))

theorem lexLe_total : ∀ a b : List Char, lexLe a b = true ∨ lexLe b a = true
  | [], _ => Or.inl rfl
  | _ :: _, [] => Or.inr rfl
  | x :: xs, y :: ys => by
    by_cases hxy : x = y
    · subst hxy
      simpa [lexLe] using lexLe_total xs ys
    · rcases lt_or_gt_of_ne hxy with h | h
      · left; simp [lexLe, hxy, h]
      · right; simp [lexLe, Ne.symm hxy, h]

theorem lexLe_trans :
    ∀ a b c : List Char, lexLe a b = true → lexLe b c = true → lexLe a c = true
  | [], _, _, _, _ => rfl
  | _ :: _, [], _, h1, _ => by simp [lexLe] at h1
  | _ :: _, _ :: _, [], _, h2 => by simp [lexLe] at h2
  | x :: xs, y :: ys, z :: zs, h1, h2 => by
    by_cases hxy : x = y <;> by_cases hyz : y = z
    · subst hxy; subst hyz
      simp only [lexLe, if_pos rfl] at h1 h2 ⊢
      exact lexLe_trans xs ys zs h1 h2
    · subst hxy
      simp only [lexLe, if_pos rfl, if_neg hyz, decide_eq_true_eq] at h1 h2 ⊢
      simp [hyz, h2]
    · subst hyz
      simp only [lexLe, if_pos rfl, if_neg hxy, decide_eq_true_eq] at h1 h2 ⊢
      simp [hxy, h1]
    · simp only [lexLe, if_neg hxy, if_neg hyz, decide_eq_true_eq] at h1 h2
      have hxz : x < z := lt_trans h1 h2
      simp [lexLe, ne_of_lt hxz, hxz]

theorem lexLe_antisymm :
    ∀ a b : List Char, lexLe a b = true → lexLe b a = true → a = b
  | [], [], _, _ => rfl
  | [], _ :: _, _, h2 => by simp [lexLe] at h2
  | _ :: _, [], h1, _ => by simp [lexLe] at h1
  | x :: xs, y :: ys, h1, h2 => by
    by_cases hxy : x = y
    · subst hxy
      simp only [lexLe, if_pos rfl] at h1 h2
      exact congrArg (x :: ·) (lexLe_antisymm xs ys h1 h2)
    · simp only [lexLe, if_neg hxy, if_neg (Ne.symm hxy), decide_eq_true_eq] at h1 h2
      exact absurd h2 (lt_asymm h1)

instance : IsTotal String pyle := ⟨fun a b => lexLe_total a.data b.data⟩

instance : IsTrans String pyle :=
  ⟨fun a b c h1 h2 => lexLe_trans a.data b.data c.data h1 h2⟩

instance : IsAntisymm String pyle :=
  ⟨fun a b h1 h2 => by
    cases a; cases b
    exact congrArg String.mk (lexLe_antisymm _ _ h1 h2)⟩

/-- Python `sorted` on a list of strings (code-point lexicographic,
ascending).  Python uses a stable sort; since `pyle` is a linear order,
any sort by `pyle` produces the same list. -/
def pysorted (l : List String) : List String := l.insertionSort pyle

theorem pysorted_perm (l : List String) : (pysorted l).Perm l :=
  List.perm_insertionSort pyle l

theorem pysorted_sorted (l : List String) : (pysorted l).Sorted pyle :=
  List.sorted_insertionSort pyle l

theorem pysorted_eq_of_perm {l1 l2 : List String} (h : l1.Perm l2) :
    pysorted l1 = pysorted l2 :=
  List.eq_of_perm_of_sorted
    ((pysorted_perm l1).trans (h.trans (pysorted_perm l2).symm))
    (pysorted_sorted l1) (pysorted_sorted l2)

/-! ## Hashing (`hashlib.sha1` / `hashlib.sha256` over raw bytes) -/

/-- Rotate a 32-bit word left by `n` bits. -/
def rotl32 (n x : Nat) : Nat := ((x <<< n) ||| (x >>> (32 - n))) % 4294967296

/-- Rotate a 32-bit word right by `n` bits. -/
def rotr32 (n x : Nat) : Nat := ((x >>> n) ||| (x <<< (32 - n))) % 4294967296

/-- Big-endian byte encoding of `v` on `numBytes` bytes. -/
def toBEBytes (numBytes v : Nat) : List Nat :=
  (List.range numBytes).map (fun i => (v >>> (8 * (numBytes - 1 - i))) % 256)

/-- Big-endian byte decoding. -/
def fromBEBytes (bs : List Nat) : Nat := bs.foldl (fun acc b => acc * 256 + b) 0

/-- Merkle–Damgård padding shared by SHA-1 and SHA-256: append `0x80`,
zero bytes up to 56 mod 64, then the bit length on 8 big-endian bytes. -/
def padMessage (msg : List Nat) : List Nat :=
  let len := msg.length
  let zeros := (120 - (len + 1) % 64) % 64
  msg ++ [128] ++ List.replicate zeros 0 ++
    toBEBytes 8 ((len * 8) % 18446744073709551616)

/-- Split a byte list into 64-byte blocks.  The fuel argument, seeded
with the list's length, only bounds the recursion depth (each block
consumes at least one byte); it never cuts the list short. -/
def chunks64Aux : Nat → List Nat → List (List Nat)
  | _, [] => []
  | 0, _ => []
  | fuel + 1, b :: rest =>
    (b :: rest).take 64 :: chunks64Aux fuel ((b :: rest).drop 64)

/-- Split a byte list into 64-byte blocks. -/
def chunks64 (l : List Nat) : List (List Nat) := chunks64Aux l.length l

/-- The sixteen 32-bit big-endian words of one 64-byte block. -/
def wordsOfChunk (chunk : List Nat) : List Nat :=
  (List.range 16).map (fun i => fromBEBytes ((chunk.drop (4 * i)).take 4))

/-- Extend a word schedule by `n` words, SHA-1 style. -/
def sha1Extend (ws : List Nat) : Nat → List Nat
  | 0 => ws
  | n + 1 =>
    let len := ws.length
    let w := rotl32 1 ((ws.getD (len - 3) 0) ^^^ (ws.getD (len - 8) 0) ^^^
                      (ws.getD (len - 14) 0) ^^^ (ws.getD (len - 16) 0))
    sha1Extend (ws ++ [w]) n

/-- SHA-1 round function. -/
def sha1F (t b c d : Nat) : Nat :=
  if t < 20 then (b &&& c) ||| ((b ^^^ 4294967295) &&& d)
  else if t < 40 then b ^^^ c ^^^ d
  else if t < 60 then (b &&& c) ||| (b &&& d) ||| (c &&& d)
  else b ^^^ c ^^^ d

/-- SHA-1 round constants. -/
def sha1K (t : Nat) : Nat :=
  if t < 20 then 1518500249
  else if t < 40 then 1859775393
  else if t < 60 then 2400959708
  else 3395469782

/-- One SHA-1 compression round. -/
def sha1Round (st : Nat × Nat × Nat × Nat × Nat) (tw : Nat × Nat) :
    Nat × Nat × Nat × Nat × Nat :=
  let (a, b, c, d, e) := st
  let (t, w) := tw
  let temp := (rotl32 5 a + sha1F t b c d + e + sha1K t + w) % 4294967296
  (temp, a, rotl32 30 b, c, d)

/-- Process one 64-byte block of SHA-1. -/
def sha1ProcessChunk (h : Nat × Nat × Nat × Nat × Nat) (chunk : List Nat) :
    Nat × Nat × Nat × Nat × Nat :=
  let ws := sha1Extend (wordsOfChunk chunk) 64
  let (h0, h1, h2, h3, h4) := h
  let (a, b, c, d, e) :=
    ((List.range 80).zip ws).foldl sha1Round (h0, h1, h2, h3, h4)
  ((h0 + a) % 4294967296, (h1 + b) % 4294967296, (h2 + c) % 4294967296,
   (h3 + d) % 4294967296, (h4 + e) % 4294967296)

/-- Lowercase hexadecimal digit. -/
def hexDigit (n : Nat) : Char :=
  if n < 10 then Char.ofNat (48 + n) else Char.ofNat (87 + n)

/-- Eight lowercase hex digits of a 32-bit word. -/
def toHex32 (v : Nat) : String :=
  String.mk ((List.range 8).map (fun i => hexDigit ((v >>> (4 * (7 - i))) % 16)))

/-- SHA-1 hex digest of a byte list, exactly as `hashlib.sha1(...).hexdigest()`. -/
def sha1Hex (msg : List Nat) : String :=
  let (h0, h1, h2, h3, h4) :=
    (chunks64 (padMessage msg)).foldl sha1ProcessChunk
      (1732584193, 4023233417, 2562383102, 271733878, 3285377520)
  toHex32 h0 ++ toHex32 h1 ++ toHex32 h2 ++ toHex32 h3 ++ toHex32 h4

/-- SHA-256 round constants. -/
def sha256K : List Nat :=
  [1116352408, 1899447441, 3049323471, 3921009573, 961987163, 1508970993,
   2453635748, 2870763221, 3624381080, 310598401, 607225278, 1426881987,
   1925078388, 2162078206, 2614888103, 3248222580, 3835390401, 4022224774,
   264347078, 604807628, 770255983, 1249150122, 1555081692, 1996064986,
   2554220882, 2821834349, 2952996808, 3210313671, 3336571891, 3584528711,
   113926993, 338241895, 666307205, 773529912, 1294757372, 1396182291,
   1695183700, 1986661051, 2177026350, 2456956037, 2730485921, 2820302411,
   3259730800, 3345764771, 3516065817, 3600352804, 4094571909, 275423344,
   430227734, 506948616, 659060556, 883997877, 958139571, 1322822218,
   1537002063, 1747873779, 1955562222, 2024104815, 2227730452, 2361852424,
   2428436474, 2756734187, 3204031479, 3329325298]

/-- Extend a word schedule by `n` words, SHA-256 style. -/
def sha256Extend (ws : List Nat) : Nat → List Nat
  | 0 => ws
  | n + 1 =>
    let len := ws.length
    let w15 := ws.getD (len - 15) 0
    let w2 := ws.getD (len - 2) 0
    let s0 := (rotr32 7 w15) ^^^ (rotr32 18 w15) ^^^ (w15 >>> 3)
    let s1 := (rotr32 17 w2) ^^^ (rotr32 19 w2) ^^^ (w2 >>> 10)
    let w := (ws.getD (len - 16) 0 + s0 + ws.getD (len - 7) 0 + s1) % 4294967296
    sha256Extend (ws ++ [w]) n

/-- One SHA-256 compression round. -/
def sha256Round (st : Nat × Nat × Nat × Nat × Nat × Nat × Nat × Nat)
    (kw : Nat × Nat) : Nat × Nat × Nat × Nat × Nat × Nat × Nat × Nat :=
  let (a, b, c, d, e, f, g, h) := st
  let (k, w) := kw
  let s1 := (rotr32 6 e) ^^^ (rotr32 11 e) ^^^ (rotr32 25 e)
  let ch := (e &&& f) ^^^ ((e ^^^ 4294967295) &&& g)
  let temp1 := (h + s1 + ch + k + w) % 4294967296
  let s0 := (rotr32 2 a) ^^^ (rotr32 13 a) ^^^ (rotr32 22 a)
  let maj := (a &&& b) ^^^ (a &&& c) ^^^ (b &&& c)
  let temp2 := (s0 + maj) % 4294967296
  ((temp1 + temp2) % 4294967296, a, b, c, (d + temp1) % 4294967296, e, f, g)

/-- Process one 64-byte block of SHA-256. -/
def sha256ProcessChunk (h : Nat × Nat × Nat × Nat × Nat × Nat × Nat × Nat)
    (chunk : List Nat) : Nat × Nat × Nat × Nat × Nat × Nat × Nat × Nat :=
  let ws := sha256Extend (wordsOfChunk chunk) 48
  let (h0, h1, h2, h3, h4, h5, h6, h7) := h
  let (a, b, c, d, e, f, g, hh) :=
    (sha256K.zip ws).foldl sha256Round (h0, h1, h2, h3, h4, h5, h6, h7)
  ((h0 + a) % 4294967296, (h1 + b) % 4294967296, (h2 + c) % 4294967296,
   (h3 + d) % 4294967296, (h4 + e) % 4294967296, (h5 + f) % 4294967296,
   (h6 + g) % 4294967296, (h7 + hh) % 4294967296)

/-- SHA-256 hex digest of a byte list, exactly as
`hashlib.sha256(...).hexdigest()`. -/
def sha256Hex (msg : List Nat) : String :=
  let (h0, h1, h2, h3, h4, h5, h6, h7) :=
    (chunks64 (padMessage msg)).foldl sha256ProcessChunk
      (1779033703, 3144134277, 1013904242, 2773480762,
       1359893119, 2600822924, 528734635, 1541459225)
  toHex32 h0 ++ toHex32 h1 ++ toHex32 h2 ++ toHex32 h3 ++
    toHex32 h4 ++ toHex32 h5 ++ toHex32 h6 ++ toHex32 h7

/-- UTF-8 encoding of one character, as a list of byte values. -/
def utf8EncodeCharNat (c : Char) : List Nat :=
  let n := c.toNat
  if n < 128 then [n]
  else if n < 2048 then [192 + n / 64, 128 + n % 64]
  else if n < 65536 then [224 + n / 4096, 128 + (n / 64) % 64, 128 + n % 64]
  else [240 + n / 262144, 128 + (n / 4096) % 64, 128 + (n / 64) % 64, 128 + n % 64]

/-- UTF-8 encoding of a string (Python `s.encode('utf-8')`). -/
def utf8Bytes (s : String) : List Nat := s.data.flatMap utf8EncodeCharNat

/-! ## Data model (`datatypes.py`)

Python dicts that map SPDX IDs to entities preserve insertion order;
they are embedded as insertion-ordered lists.  The `doc`/`pkg`
back-references and the per-entity `rlns` lists, which no code under
`src/` ever populates or reads, are omitted from the embedding. -/

/-- ScannerConfig (`scanner.py`), with the constructor's defaults. -/
structure ScannerConfig where
  shouldConcludePackageLicense : Bool := true
  shouldConcludeFileLicenses : Bool := true
  numLinesScanned : Nat := 20
  doSHA256 : Bool := true
deriving DecidableEq

/-- PackageConfig (`datatypes.py`), with the constructor's defaults. -/
structure PackageConfig where
  fileListPath : String := ""
  basedir : String := ""
  name : String := ""
  version : String := ""
  supplierPerson : String := ""
  supplierOrg : String := ""
  spdxID : String := ""
  declaredLicense : String := "NOASSERTION"
  copyrightText : String := "NOASSERTION"
deriving DecidableEq

/-- File (`datatypes.py`), with the constructor's defaults. -/
structure File where
  abspath : String := ""
  relpath : String := ""
  spdxID : String := ""
  sha1 : String := ""
  sha256 : String := ""
  concludedLicense : String := "NOASSERTION"
  licenseInfoInFile : List String := []
  copyrightText : String := "NOASSERTION"
deriving DecidableEq

/-- Package (`datatypes.py`).  `files` is the dict of SPDX ID to File,
embedded as the insertion-ordered list of its values (the SPDX IDs are
also stored in each File). -/
structure Package where
  cfg : PackageConfig
  verificationCode : String := ""
  concludedLicense : String := "NOASSERTION"
  licenseInfoFromFiles : List String := []
  files : List File := []
deriving DecidableEq

/-- DocumentConfig (`datatypes.py`).  The Python field `namespace` is a
Lean keyword and is embedded as `nspace`. -/
structure DocumentConfig where
  name : String := ""
  nspace : String := ""
  docRefID : String := ""
deriving DecidableEq

/-- Relationship (`datatypes.py`). -/
structure Relationship where
  refA : String := ""
  refB : String := ""
  rlnType : String := ""
deriving DecidableEq

/-- Document (`datatypes.py`).  `pkgs` is the dict of SPDX ID to
Package, embedded as an insertion-ordered association list.  The sets
`externalDocuments` and `customLicenseIDs` and the post-write `myDocSHA1`
field, never touched by the code under `src/`, are omitted. -/
structure Document where
  cfg : DocumentConfig
  pkgs : List (String × Package) := []
  relationships : List Relationship := []
deriving DecidableEq

/-! ## Filesystem model -/

/-- Content of one file on disk.  `bytes` is what a binary-mode read
(`getHashes`) sees; `text` is the sequence of lines a text-mode read
(`readlines` / `for line in f`) yields — each line keeps its trailing
`"\n"`, the file's final line possibly lacking one — or `none` for
content that raises `UnicodeDecodeError` when decoded. -/
structure FSFile where
  bytes : List Nat := []
  text : Option (List String) := some []
deriving DecidableEq

/-- The filesystem: a partial map from path to file content, `none`
meaning the path cannot be opened (`OSError`). -/
def FS : Type := String → Option FSFile

/-! ## Scanner (`scanner.py`) -/

/-- getHashes (`util.py`): SHA-1 and SHA-256 hex digests of the file's
raw bytes, or `none` if the file cannot be opened. -/
def getHashes (fs : FS) (filePath : String) : Option (String × String) :=
  match fs filePath with
  | none => none
  | some f => some (sha1Hex f.bytes, sha256Hex f.bytes)

/-- parseLineForExpression (`scanner.py`): the parsed SPDX expression if
the tag is found in the line, `none` otherwise. -/
def parseLineForExpression (line : String) : Option String :=
  let p2 := pyPartitionAfter line "SPDX-License-Identifier:"
  if p2 = "" then none
  else some (pyStrip (pyRstripSet (pyStrip p2) ['/', '*']))

/-- The line loop of getExpressionData: `lineno` is the 1-based number of
the next line; scanning stops once `lineno > numLines > 0`. -/
def scanLinesForTag (numLines : Nat) : Nat → List String → Option String
  | _, [] => none
  | lineno, l :: rest =>
    if 0 < numLines ∧ numLines < lineno then none
    else
      match parseLineForExpression l with
      | some e => some e
      | none => scanLinesForTag numLines (lineno + 1) rest

/-- getExpressionData (`scanner.py`): first SPDX-License-Identifier
expression within the first `numLines` lines (all lines when
`numLines = 0`); `none` when the tag is absent or the content is not
valid text.  In the source an unopenable path raises here; `scanPackage`
only calls this after the same path was successfully opened for
hashing, and the embedding returns `none` for that unreachable case. -/
def getExpressionData (fs : FS) (filePath : String) (numLines : Nat) :
    Option String :=
  match fs filePath with
  | none => none
  | some f =>
    match f.text with
    | none => none
    | some lines => scanLinesForTag numLines 1 lines

/-- The first regex of splitExpression: remove every parenthesis and
plus character. -/
def removeParensPlus (s : String) : String :=
  String.mk (s.data.filter (fun c => ¬(c = '(' ∨ c = ')' ∨ c = '+')))

/-- Case-insensitive prefix match on character lists (ASCII case
folding, as Python `re.IGNORECASE` behaves on these operator words). -/
def matchesCI (pat s : List Char) : Bool :=
  (pat.map Char.toLower).isPrefixOf (s.map Char.toLower)

/-- The second regex of splitExpression: replace each leftmost-first,
non-overlapping occurrence of the whole-word operators `" AND "`,
`" OR "`, `" WITH "` (case-insensitive) by a single space. -/
def replaceOpsAux : Nat → List Char → List Char
  | _, [] => []
  | 0, l => l
  | fuel + 1, c :: rest =>
    if matchesCI " AND ".data (c :: rest) then
      ' ' :: replaceOpsAux fuel ((c :: rest).drop 5)
    else if matchesCI " OR ".data (c :: rest) then
      ' ' :: replaceOpsAux fuel ((c :: rest).drop 4)
    else if matchesCI " WITH ".data (c :: rest) then
      ' ' :: replaceOpsAux fuel ((c :: rest).drop 6)
    else c :: replaceOpsAux fuel rest

/-- See `replaceOpsAux`; the fuel, seeded with the list's length, only
bounds the recursion depth (every step consumes at least one
character), it never changes the result. -/
def replaceOps (l : List Char) : List Char := replaceOpsAux l.length l

/-- splitExpression (`scanner.py`): parse a license expression into its
sorted constituent identifiers. -/
def splitExpression (expression : String) : List String :=
  let e2 := removeParensPlus expression
  let e3 := String.mk (replaceOps e2.data)
  let e4 := pySplitOnSpace e3
  pysorted e4

/-- calculateVerificationCode (`scanner.py`): SHA-1 hex digest of the
concatenation of the sorted SHA-1 digests of all files in the package. -/
def calculateVerificationCode (pkg : Package) : String :=
  let hashes := pysorted (pkg.files.map File.sha1)
  let filelist := String.join hashes
  sha1Hex (utf8Bytes filelist)

/-- getPackageLicenses (`scanner.py`): the sorted set of concluded
license expressions and the sorted set of license-info-in-file
identifiers over all files of the package. -/
def getPackageLicenses (pkg : Package) : List String × List String :=
  let licsConcluded := (pkg.files.map File.concludedLicense).dedup
  let licsFromFiles := (pkg.files.flatMap File.licenseInfoInFile).dedup
  (pysorted licsConcluded, pysorted licsFromFiles)

/-- normalizeExpression (`scanner.py`): combine license expressions into
one AND-joined expression, parenthesising any entry containing a space
and dropping `NONE`/`NOASSERTION` entries when there are two or more. -/
def normalizeExpression (licsConcluded : List String) : String :=
  if licsConcluded.length = 0 then "NOASSERTION"
  else if licsConcluded.length = 1 then licsConcluded.headD ""
  else
    let revised := (licsConcluded.filter
        (fun lic => ¬(lic = "NONE" ∨ lic = "NOASSERTION"))).map
      (fun lic => if pyContainsChar lic ' ' then "(" ++ lic ++ ")" else lic)
    String.intercalate " AND " revised

/-- The absolute path of a scanned file:
`os.path.normpath(os.path.join(os.path.abspath(basedir), fileRelPath))`,
modelled for an absolute, already-normal `basedir` and a plain relative
path with no dot segments (the only shapes the scanner produces). -/
def resolvePath (basedir relpath : String) : String :=
  basedir ++ "/" ++ relpath

/-- The per-file loop body of scanPackage, over the results of the two
reads it performs: build one File for `fileRelPath` at absolute path
`ap`, record the hashes when hashing succeeded, and then record the
licensing when the license scan found a nonempty expression (when
hashing failed the license scan result is never consulted, as in the
source, where it is not even computed). -/
def buildFileWith (scanCfg : ScannerConfig) (fileRelPath ap : String)
    (idx : Nat) (hashes : Option (String × String)) (expr : Option String) :
    File :=
  let f0 : File :=
    { relpath := fileRelPath,
      abspath := ap,
      spdxID := "SPDXRef-File-" ++ toString idx }
  match hashes with
  | none => f0
  | some (hSHA1, hSHA256) =>
    let f1 := { f0 with
      sha1 := hSHA1,
      sha256 := if scanCfg.doSHA256 then hSHA256 else f0.sha256 }
    match expr with
    | none => f1
    | some expression =>
      if expression = "" then f1
      else
        { f1 with
          concludedLicense :=
            if scanCfg.shouldConcludeFileLicenses then expression
            else f1.concludedLicense,
          licenseInfoInFile := splitExpression expression }

/-- The body of the per-file loop of scanPackage: build one File for
`fileRelPath`, hash it, and scan its licensing.  The source names each
File `SPDXRef-File-` + a fresh `uuid4`; the embedding draws the fresh
identifier from the file's index `idx`. -/
def buildFile (fs : FS) (scanCfg : ScannerConfig) (basedir fileRelPath : String)
    (idx : Nat) : File :=
  buildFileWith scanCfg fileRelPath (resolvePath basedir fileRelPath) idx
    (getHashes fs (resolvePath basedir fileRelPath))
    (getExpressionData fs (resolvePath basedir fileRelPath)
      scanCfg.numLinesScanned)

/-- scanPackage (`scanner.py`): scan for licenses and calculate hashes
for all files listed in `pkgCfg.fileListPath`, build the Files and the
Package, and return the Package; `none` when the file list cannot be
read. -/
def scanPackage (fs : FS) (scanCfg : ScannerConfig) (pkgCfg : PackageConfig) :
    Option Package :=
  match fs pkgCfg.fileListPath with
  | none => none
  | some flist =>
    match flist.text with
    | none => none
    | some lines =>
      let filesToScan := lines.map pyRstrip
      let files := filesToScan.enum.map
        (fun ip => buildFile fs scanCfg pkgCfg.basedir ip.2 ip.1)
      let pkg0 : Package := { cfg := pkgCfg, files := files }
      let (licsConcluded, licsFromFiles) := getPackageLicenses pkg0
      some { pkg0 with
        concludedLicense :=
          if scanCfg.shouldConcludePackageLicense then
            normalizeExpression licsConcluded
          else pkg0.concludedLicense,
        licenseInfoFromFiles := licsFromFiles,
        verificationCode := calculateVerificationCode pkg0 }

/-! ## Document assembly (`sbom.py`) -/

/-- SBOMConfig (`sbom.py`), with the constructor's defaults. -/
structure SBOMConfig where
  sourceList : String := ""
  srcdir : String := ""
  buildList : String := ""
  builddir : String := ""
  namespacePrefix : String := ""
  outputDir : String := "."
  packageName : String := "mycode"
  packageVersion : String := ""
  packageDeclaredLicense : String := "NOASSERTION"
  supplierPerson : String := ""
  supplierOrganization : String := ""
  pretty : Bool := false
deriving DecidableEq

/-- Insertion into a Python dict embedded as an association list:
replace in place when the key is present, append otherwise. -/
def dictInsert (d : List (String × Package)) (k : String) (v : Package) :
    List (String × Package) :=
  if d.any (fun kv => kv.1 = k) then
    d.map (fun kv => if kv.1 = k then (k, v) else kv)
  else d ++ [(k, v)]

/-- makeSPDXDocument (`sbom.py`): create the SPDX Document containing
the sources and builds Packages, with all relationships and metadata. -/
def makeSPDXDocument (sbomCfg : SBOMConfig) (srcPkg buildPkg : Package) :
    Document :=
  let docCfg : DocumentConfig :=
    { name := sbomCfg.packageName ++ " sources and builds",
      nspace := sbomCfg.namespacePrefix }
  let doc : Document := { cfg := docCfg }
  let doc := { doc with
    pkgs := dictInsert doc.pkgs srcPkg.cfg.spdxID srcPkg,
    relationships := doc.relationships ++
      [({ refA := "SPDXRef-DOCUMENT", refB := srcPkg.cfg.spdxID,
          rlnType := "DESCRIBES" } : Relationship)] }
  let doc := { doc with
    pkgs := dictInsert doc.pkgs buildPkg.cfg.spdxID buildPkg,
    relationships := doc.relationships ++
      [({ refA := "SPDXRef-DOCUMENT", refB := buildPkg.cfg.spdxID,
          rlnType := "DESCRIBES" } : Relationship)] }
  { doc with
    relationships := doc.relationships ++
      [({ refA := buildPkg.cfg.spdxID, refB := srcPkg.cfg.spdxID,
          rlnType := "GENERATED_FROM" } : Relationship)] }

/-! ## JSON projection (`writer.py`)

The JSON dictionaries produced by the writer are embedded as structures
with one field per JSON key; a key the writer only sometimes emits
(`versionInfo`, `supplier`, `hasExtractedLicensingInfos`) becomes an
`Option` field, `none` meaning the key is absent.  The `creationInfo`
section, whose `created` value is the wall-clock time of the run, is
outside the embedded model. -/

/-- One entry of a `checksums` array. -/
structure ChecksumJSON where
  algorithm : String
  checksumValue : String
deriving DecidableEq

/-- One entry of the document-wide `files` array. -/
structure FileJSON where
  spdxID : String
  fileName : String
  licenseConcluded : String
  licenseInfoInFiles : List String
  copyrightText : String
  checksums : List ChecksumJSON
deriving DecidableEq

/-- One entry of the `packages` array. -/
structure PackageJSON where
  spdxID : String
  name : String
  versionInfo : Option String
  supplier : Option String
  licenseDeclared : String
  copyrightText : String
  downloadLocation : String
  licenseConcluded : String
  licenseInfoFromFiles : List String
  filesAnalyzed : Bool
  packageVerificationCodeValue : String
  hasFiles : List String
deriving DecidableEq

/-- One entry of the `relationships` array. -/
structure RelationshipJSON where
  spdxElementId : String
  relatedSpdxElement : String
  relationshipType : String
deriving DecidableEq

/-- One entry of the `hasExtractedLicensingInfos` array. -/
structure OtherLicJSON where
  licenseId : String
  comment : String
  extractedText : String
  name : String
deriving DecidableEq

/-- The SPDX JSON document. -/
structure DocumentJSON where
  spdxVersion : String
  dataLicense : String
  spdxID : String
  name : String
  documentNamespace : String
  documentDescribes : List String
  packages : List PackageJSON
  files : List FileJSON
  relationships : List RelationshipJSON
  hasExtractedLicensingInfos : Option (List OtherLicJSON)
deriving DecidableEq

/-- makeSPDXJSONFile (`writer.py`). -/
def makeSPDXJSONFile (f : File) : FileJSON :=
  { spdxID := f.spdxID,
    fileName := f.relpath,
    licenseConcluded := f.concludedLicense,
    licenseInfoInFiles := f.licenseInfoInFile,
    copyrightText := f.copyrightText,
    checksums :=
      [{ algorithm := "SHA1", checksumValue := f.sha1 }] ++
        (if f.sha256 ≠ "" then
          [{ algorithm := "SHA256", checksumValue := f.sha256 }]
        else []) }

/-- makeSPDXJSONPackage (`writer.py`): the package's JSON dict, together
with the document-wide `files` array extended by this package's files. -/
def makeSPDXJSONPackage (p : Package) (docFiles : List FileJSON) :
    PackageJSON × List FileJSON :=
  let pj : PackageJSON :=
    { spdxID := p.cfg.spdxID,
      name := p.cfg.name,
      versionInfo := if p.cfg.version ≠ "" then some p.cfg.version else none,
      supplier :=
        if p.cfg.supplierOrg ≠ "" then
          some ("Organization: " ++ p.cfg.supplierOrg)
        else if p.cfg.supplierPerson ≠ "" then
          some ("Person: " ++ p.cfg.supplierPerson)
        else none,
      licenseDeclared := p.cfg.declaredLicense,
      copyrightText := p.cfg.copyrightText,
      downloadLocation := "NOASSERTION",
      licenseConcluded := p.concludedLicense,
      licenseInfoFromFiles := p.licenseInfoFromFiles,
      filesAnalyzed := true,
      packageVerificationCodeValue := p.verificationCode,
      hasFiles := p.files.map File.spdxID }
  (pj, docFiles ++ p.files.map makeSPDXJSONFile)

/-- Python `set.add` modelled on an insertion-ordered duplicate-free
list (the set is only ever consumed through `sorted`, so the order the
model keeps is irrelevant). -/
def addToSet (s : List String) (x : String) : List String :=
  if x ∈ s then s else s ++ [x]

/-- The declared-license check of the collection loop: add the
package's declared license to the set when that whole string starts
with `LicenseRef-`. -/
def addDeclaredRef (acc : List String) (pkg : Package) : List String :=
  if pyStartsWith pkg.cfg.declaredLicense "LicenseRef-" then
    addToSet acc pkg.cfg.declaredLicense
  else acc

/-- The `licenseInfoFromFiles` check of the collection loop: add every
entry starting with `LicenseRef-` to the set. -/
def addFileRefs (acc : List String) (pkg : Package) : List String :=
  pkg.licenseInfoFromFiles.foldl
    (fun a l => if pyStartsWith l "LicenseRef-" then addToSet a l else a) acc

/-- The `licenseRefs` set collected by makeSPDXJSONOtherLicensingInfo:
each package's declared license when that whole string starts with
`LicenseRef-`, and every `licenseInfoFromFiles` entry starting with
`LicenseRef-`. -/
def collectLicenseRefs (doc : Document) : List String :=
  doc.pkgs.foldl (fun acc kv => addFileRefs (addDeclaredRef acc kv.2) kv.2) []

/-- makeSPDXJSONOtherLicensingInfo (`writer.py`): placeholder
extracted-licensing-info entries for the sorted `LicenseRef-` IDs, or an
empty list when there are none. -/
def makeSPDXJSONOtherLicensingInfo (doc : Document) : List OtherLicJSON :=
  (pysorted (collectLicenseRefs doc)).map
    (fun lr =>
      { licenseId := lr,
        comment := "Corresponds to the license ID `" ++ lr ++
          "` detected in an SPDX-License-Identifier: tag.",
        extractedText := lr,
        name := lr })

/-- makeSPDXJSONDocument (`writer.py`): the SPDX JSON document for the
given Document (minus the wall-clock `creationInfo` section). -/
def makeSPDXJSONDocument (doc : Document) : DocumentJSON :=
  let dj : DocumentJSON :=
    { spdxVersion := "SPDX-2.2",
      dataLicense := "CC0-1.0",
      spdxID := "SPDXRef-DOCUMENT",
      name := doc.cfg.name,
      documentNamespace := doc.cfg.nspace,
      documentDescribes := [],
      packages := [],
      files := [],
      relationships := [],
      hasExtractedLicensingInfos := none }
  let dj := doc.pkgs.foldl
    (fun dj kv =>
      let pf := makeSPDXJSONPackage kv.2 dj.files
      { dj with
        documentDescribes := dj.documentDescribes ++ [kv.1],
        packages := dj.packages ++ [pf.1],
        files := pf.2 })
    dj
  let dj := { dj with
    relationships := doc.relationships.map
      (fun rln =>
        { spdxElementId := rln.refA,
          relatedSpdxElement := rln.refB,
          relationshipType := rln.rlnType }) }
  let lj := makeSPDXJSONOtherLicensingInfo doc
  if lj.length > 0 then { dj with hasExtractedLicensingInfos := some lj }
  else dj

/-! ## Fixtures: concrete inputs used by witnesses and counterexamples -/

/-- A scanned file with SHA-1 digest `"aaa"`. -/
def fileA : File := { relpath := "a.c", sha1 := "aaa" }

/-- A scanned file with SHA-1 digest `"bbb"`. -/
def fileB : File := { relpath := "b.c", sha1 := "bbb" }

/-- A package holding `fileA` then `fileB`. -/
def pkgAB : Package := { cfg := {}, files := [fileA, fileB] }

/-- The same package with its files inserted in the opposite order. -/
def pkgBA : Package := { cfg := {}, files := [fileB, fileA] }

/-- A filesystem with a one-line sources list and one scannable C file
whose third line carries the SPDX tag of the spec's example. -/
def fsC6 : FS := fun p =>
  if p = "sources.txt" then some { text := some ["main.c\n"] }
  else if p = "/src/main.c" then
    some { bytes := utf8Bytes "abc",
           text := some ["first line\n", "second line\n",
                         "// SPDX-License-Identifier: MIT OR Apache-2.0 */\n"] }
  else none

/-- The package configuration scanning `fsC6`. -/
def pkgCfgC6 : PackageConfig :=
  { fileListPath := "sources.txt", basedir := "/src",
    spdxID := "SPDXRef-Package-sources" }

/-! ## Claim C1 -/

/-- C1: `calculateVerificationCode` collects every File's SHA-1 hex
digest (a File with no computed hash has `sha1 = ""` and is not
excluded: one digest string per File), sorts the digest strings
lexicographically, concatenates them with no separator, and returns the
SHA-1 hex digest of the UTF-8 encoding of that concatenation; being a
pure function of the files it is deterministic, and it is invariant
under any permutation of the Files' insertion order. -/
theorem C1_verification_code (pkg1 pkg2 : Package)
    (h : pkg1.files.Perm pkg2.files) :
    calculateVerificationCode pkg1 = calculateVerificationCode pkg2 ∧
    calculateVerificationCode pkg1 =
      sha1Hex (utf8Bytes (String.join (pysorted (pkg1.files.map File.sha1)))) ∧
    (pkg1.files.map File.sha1).length = pkg1.files.length := by
  refine ⟨?_, rfl, pkg1.files.length_map File.sha1⟩
  unfold calculateVerificationCode
  rw [pysorted_eq_of_perm (h.map File.sha1)]

/-- Witness for C1 at two concrete two-file packages whose files are
inserted in opposite orders. -/
theorem C1_verification_code_witness :
    calculateVerificationCode pkgAB = calculateVerificationCode pkgBA ∧
    calculateVerificationCode pkgAB =
      sha1Hex (utf8Bytes (String.join (pysorted (pkgAB.files.map File.sha1)))) ∧
    (pkgAB.files.map File.sha1).length = pkgAB.files.length :=
  C1_verification_code pkgAB pkgBA (by decide)

/-! ## Claim C2 -/

/-- C2 counterexample: `normalizeExpression` joins in input-list order,
so `normalizeExpression(["MIT","Apache-2.0"])` is `"MIT AND
Apache-2.0"`, not the `"Apache-2.0 AND MIT"` the claim states. -/
theorem C2_counterexample :
    normalizeExpression ["MIT", "Apache-2.0"] = "MIT AND Apache-2.0" ∧
    normalizeExpression ["MIT", "Apache-2.0"] ≠ "Apache-2.0 AND MIT" := by
  constructor
  · rfl
  · decide

/-- C2 amended: `normalizeExpression` returns `"NOASSERTION"` on the
empty list, the single expression verbatim on a one-element list, and
otherwise drops `NONE`/`NOASSERTION` entries, parenthesises entries
containing a space, and joins the rest with `" AND "` in input order —
so `["MIT","Apache-2.0"]` gives `"MIT AND Apache-2.0"`, the sorted
input `["Apache-2.0","MIT"]` gives `"Apache-2.0 AND MIT"`, and
`["MIT","NOASSERTION"]` gives `"MIT"`. -/
theorem C2_normalize_expression :
    normalizeExpression [] = "NOASSERTION" ∧
    (∀ e : String, normalizeExpression [e] = e) ∧
    (∀ l : List String, 2 ≤ l.length →
      normalizeExpression l =
        String.intercalate " AND "
          ((l.filter (fun lic => ¬(lic = "NONE" ∨ lic = "NOASSERTION"))).map
            (fun lic =>
              if pyContainsChar lic ' ' then "(" ++ lic ++ ")" else lic))) ∧
    normalizeExpression ["MIT", "Apache-2.0"] = "MIT AND Apache-2.0" ∧
    normalizeExpression ["Apache-2.0", "MIT"] = "Apache-2.0 AND MIT" ∧
    normalizeExpression ["MIT", "NOASSERTION"] = "MIT" := by
  refine ⟨rfl, fun e => rfl, fun l h => ?_, rfl, rfl, rfl⟩
  unfold normalizeExpression
  rw [if_neg (by omega), if_neg (by omega)]

/-! ## Claim C3 -/

/-- C3: on a list of two or more entries that are all sentinels,
`normalizeExpression` filters every entry away and returns the join of
the empty sequence — the empty string, not `"NOASSERTION"`. -/
theorem C3_sentinel_join :
    normalizeExpression ["NONE", "NOASSERTION"] = "" ∧
    normalizeExpression ["NONE", "NOASSERTION"] ≠ "NOASSERTION" := by
  constructor
  · rfl
  · decide

/-! ## Claim C6 -/

/-- C6: on a line containing the marker with a nonempty remainder `r`,
`parseLineForExpression` returns `r` stripped of whitespace, then of
trailing comment-closer characters, then of any further whitespace, in
that order; consequently the fixture file whose third line is
`// SPDX-License-Identifier: MIT OR Apache-2.0 */`, scanned with a line
limit of 20, yields the expression `"MIT OR Apache-2.0"`, which splits
into `["Apache-2.0", "MIT"]`, and the scanned Package's File carries
exactly those as concluded license and licenseInfoInFile. -/
theorem C6_tag_extraction (line r : String)
    (hr : pyPartitionAfter line "SPDX-License-Identifier:" = r)
    (hne : r ≠ "") :
    parseLineForExpression line =
      some (pyStrip (pyRstripSet (pyStrip r) ['/', '*'])) ∧
    getExpressionData fsC6 "/src/main.c" 20 = some "MIT OR Apache-2.0" ∧
    splitExpression "MIT OR Apache-2.0" = ["Apache-2.0", "MIT"] ∧
    (scanPackage fsC6 {} pkgCfgC6).map
        (fun pkg => pkg.files.map (fun f => (f.concludedLicense, f.licenseInfoInFile)))
      = some [("MIT OR Apache-2.0", ["Apache-2.0", "MIT"])] := by
  refine ⟨?_, by decide, by decide, by decide⟩
  simp only [parseLineForExpression]
  rw [hr, if_neg hne]

/-- Witness for C6 at the example line itself, as text-mode iteration
yields it (trailing newline included). -/
theorem C6_tag_extraction_witness :
    parseLineForExpression "// SPDX-License-Identifier: MIT OR Apache-2.0 */\n" =
      some (pyStrip (pyRstripSet (pyStrip " MIT OR Apache-2.0 */\n") ['/', '*'])) ∧
    getExpressionData fsC6 "/src/main.c" 20 = some "MIT OR Apache-2.0" ∧
    splitExpression "MIT OR Apache-2.0" = ["Apache-2.0", "MIT"] ∧
    (scanPackage fsC6 {} pkgCfgC6).map
        (fun pkg => pkg.files.map (fun f => (f.concludedLicense, f.licenseInfoInFile)))
      = some [("MIT OR Apache-2.0", ["Apache-2.0", "MIT"])] :=
  C6_tag_extraction "// SPDX-License-Identifier: MIT OR Apache-2.0 */\n"
    " MIT OR Apache-2.0 */\n" (by decide) (by decide)

/-! ## Claim C7 -/

/-- C7: `splitExpression` removes parentheses and plus characters,
replaces the whole-word operators by single spaces, splits on spaces,
and returns the tokens sorted lexicographically; in particular every
result is sorted, and
`splitExpression "MIT AND (Apache-2.0 OR BSD-3-Clause)"` is
`["Apache-2.0", "BSD-3-Clause", "MIT"]`. -/
theorem C7_split_expression :
    (∀ e : String, (splitExpression e).Sorted pyle) ∧
    splitExpression "MIT AND (Apache-2.0 OR BSD-3-Clause)" =
      ["Apache-2.0", "BSD-3-Clause", "MIT"] := by
  constructor
  · intro e
    exact pysorted_sorted _
  · decide

/-! ## Structural lemmas about `scanPackage` -/

theorem buildFileWith_relpath (scanCfg : ScannerConfig) (p ap : String)
    (i : Nat) (hashes : Option (String × String)) (expr : Option String) :
    (buildFileWith scanCfg p ap i hashes expr).relpath = p := by
  unfold buildFileWith
  cases hashes with
  | none => rfl
  | some hp =>
    obtain ⟨h1, h2⟩ := hp
    cases expr with
    | none => rfl
    | some e => by_cases he : e = "" <;> simp [he]

theorem buildFile_relpath (fs : FS) (scanCfg : ScannerConfig) (bd p : String)
    (i : Nat) : (buildFile fs scanCfg bd p i).relpath = p :=
  buildFileWith_relpath scanCfg p (resolvePath bd p) i _ _

theorem buildFileWith_abspath (scanCfg : ScannerConfig) (p ap : String)
    (i : Nat) (hashes : Option (String × String)) (expr : Option String) :
    (buildFileWith scanCfg p ap i hashes expr).abspath = ap := by
  unfold buildFileWith
  cases hashes with
  | none => rfl
  | some hp =>
    obtain ⟨h1, h2⟩ := hp
    cases expr with
    | none => rfl
    | some e => by_cases he : e = "" <;> simp [he]

theorem buildFile_abspath (fs : FS) (scanCfg : ScannerConfig) (bd p : String)
    (i : Nat) : (buildFile fs scanCfg bd p i).abspath = resolvePath bd p :=
  buildFileWith_abspath scanCfg p (resolvePath bd p) i _ _

/-- A File whose license scan produced the empty expression (or nothing)
keeps the default licensing fields. -/
theorem buildFileWith_license_default (scanCfg : ScannerConfig)
    (p ap : String) (i : Nat) (hashes : Option (String × String))
    (expr : Option String) (h : expr = some "" ∨ expr = none) :
    (buildFileWith scanCfg p ap i hashes expr).concludedLicense = "NOASSERTION" ∧
    (buildFileWith scanCfg p ap i hashes expr).licenseInfoInFile = [] := by
  unfold buildFileWith
  cases hashes with
  | none => exact ⟨rfl, rfl⟩
  | some hp =>
    obtain ⟨h1, h2⟩ := hp
    rcases h with h | h <;> subst h <;> simp

/-- When the file list can be read, `scanPackage` returns a Package
whose files are one `buildFile` per rstripped line, in order. -/
theorem scanPackage_files {fs : FS} {scanCfg : ScannerConfig}
    {pkgCfg : PackageConfig} {lf : FSFile} {lines : List String}
    (h1 : fs pkgCfg.fileListPath = some lf) (h2 : lf.text = some lines) :
    ∃ pkg, scanPackage fs scanCfg pkgCfg = some pkg ∧
      pkg.files = (lines.map pyRstrip).enum.map
        (fun ip => buildFile fs scanCfg pkgCfg.basedir ip.2 ip.1) := by
  unfold scanPackage
  simp only [h1, h2]
  exact ⟨_, rfl, rfl⟩

/-- When the file list cannot be opened, `scanPackage` returns `none`. -/
theorem scanPackage_none {fs : FS} {scanCfg : ScannerConfig}
    {pkgCfg : PackageConfig} (h : fs pkgCfg.fileListPath = none) :
    scanPackage fs scanCfg pkgCfg = none := by
  unfold scanPackage
  rw [h]

/-- The relpaths of the built files are exactly the rstripped lines. -/
theorem builtFiles_map_relpath (fs : FS) (scanCfg : ScannerConfig)
    (bd : String) (l : List String) :
    ((l.enum.map (fun ip => buildFile fs scanCfg bd ip.2 ip.1)).map
      File.relpath) = l := by
  rw [List.map_map]
  have h : (File.relpath ∘ fun ip : Nat × String => buildFile fs scanCfg bd ip.2 ip.1)
      = Prod.snd := funext fun ip => buildFile_relpath fs scanCfg bd ip.2 ip.1
  rw [h, List.enum_map_snd]

/-! ## Claim C4 -/

/-- A filesystem holding only an empty file list. -/
def fsC4 : FS := fun p =>
  if p = "list4.txt" then some { text := some [] } else none

/-- The package configuration reading that list. -/
def pkgCfgC4 : PackageConfig :=
  { fileListPath := "list4.txt", basedir := "/b4",
    spdxID := "SPDXRef-Package-sources" }

/-- A filesystem on which every open fails. -/
def fsNone : FS := fun _ => none

/-- C4 counterexample: an existing but empty file list is not a hard
failure — `scanPackage` returns a Package (with zero files) instead of
aborting. -/
theorem C4_counterexample :
    (scanPackage fsC4 {} pkgCfgC4).isSome = true ∧
    (scanPackage fsC4 {} pkgCfgC4).map (fun pkg => pkg.files.length) = some 0 := by
  exact ⟨rfl, rfl⟩

/-- C4 amended: a missing (unopenable) file-list source aborts the
whole Package scan with no partial Package, but an existing empty list
is not a failure: `scanPackage` returns a Package with zero Files. -/
theorem C4_list_source_failure :
    (∀ (fs : FS) (scanCfg : ScannerConfig) (pkgCfg : PackageConfig),
      fs pkgCfg.fileListPath = none → scanPackage fs scanCfg pkgCfg = none) ∧
    (∀ (fs : FS) (scanCfg : ScannerConfig) (pkgCfg : PackageConfig) (lf : FSFile),
      fs pkgCfg.fileListPath = some lf → lf.text = some [] →
      ∃ pkg, scanPackage fs scanCfg pkgCfg = some pkg ∧ pkg.files = []) ∧
    scanPackage fsNone {} pkgCfgC4 = none ∧
    (scanPackage fsC4 {} pkgCfgC4).map (fun pkg => pkg.files) = some [] := by
  refine ⟨fun fs scanCfg pkgCfg h => scanPackage_none h,
          fun fs scanCfg pkgCfg lf h1 h2 => ?_, rfl, rfl⟩
  obtain ⟨pkg, hp, hf⟩ := scanPackage_files h1 h2
  exact ⟨pkg, hp, by simpa using hf⟩

/-! ## Claim C9 -/

/-- A filesystem whose file list repeats the same path twice. -/
def fsC9 : FS := fun p =>
  if p = "list9.txt" then some { text := some ["dup.c\n", "dup.c\n"] } else none

/-- The package configuration reading that list. -/
def pkgCfgC9 : PackageConfig :=
  { fileListPath := "list9.txt", basedir := "/b9",
    spdxID := "SPDXRef-Package-sources" }

/-- C9 counterexample: a file list repeating `dup.c` produces a Package
whose two Files share the relpath `dup.c`, so relpaths are not unique
within the Package. -/
theorem C9_counterexample :
    (scanPackage fsC9 {} pkgCfgC9).map (fun pkg => pkg.files.map File.relpath)
      = some ["dup.c", "dup.c"] ∧
    ¬ (["dup.c", "dup.c"] : List String).Nodup := by
  exact ⟨rfl, by decide⟩

/-- C9 amended: the Files' relpaths are exactly the rstripped lines of
the input file list, in order; they are therefore unique within the
Package exactly when the input list carries no repeated path, and a
repeated path yields two Files sharing a relpath. -/
theorem C9_relpath_unique (fs : FS) (scanCfg : ScannerConfig)
    (pkgCfg : PackageConfig) (lf : FSFile) (lines : List String)
    (h1 : fs pkgCfg.fileListPath = some lf) (h2 : lf.text = some lines) :
    (scanPackage fs scanCfg pkgCfg).map (fun pkg => pkg.files.map File.relpath)
      = some (lines.map pyRstrip) ∧
    ((lines.map pyRstrip).Nodup →
      ∀ pkg, scanPackage fs scanCfg pkgCfg = some pkg →
        (pkg.files.map File.relpath).Nodup) := by
  obtain ⟨pkg, hp, hf⟩ := @scanPackage_files fs scanCfg pkgCfg lf lines h1 h2
  have hrel : pkg.files.map File.relpath = lines.map pyRstrip := by
    rw [hf, builtFiles_map_relpath]
  constructor
  · rw [hp]
    exact congrArg some hrel
  · intro hnd pkg2 hp2
    rw [hp] at hp2
    cases hp2
    rw [hrel]
    exact hnd

/-- Witness for C9 at the concrete one-file filesystem `fsC6`. -/
theorem C9_relpath_unique_witness :
    (scanPackage fsC6 {} pkgCfgC6).map (fun pkg => pkg.files.map File.relpath)
      = some (["main.c\n"].map pyRstrip) ∧
    ((["main.c\n"].map pyRstrip).Nodup →
      ∀ pkg, scanPackage fsC6 {} pkgCfgC6 = some pkg →
        (pkg.files.map File.relpath).Nodup) :=
  C9_relpath_unique fsC6 {} pkgCfgC6 { text := some ["main.c\n"] } ["main.c\n"]
    rfl rfl

/-! ## Claim C10 -/

/-- A character of a `*/`-style comment closer. -/
def isCloserChar (c : Char) : Bool := c = '*' || c = '/'

/-- The claim's description of the text after the marker: only
whitespace and/or trailing comment-closer characters (possibly nothing
at all). -/
def blankOrCloserRemainder (r : String) : Prop :=
  ∃ w1 c w2 : List Char, r.data = w1 ++ c ++ w2 ∧
    (∀ x ∈ w1, isPySpace x = true) ∧
    (∀ x ∈ c, isCloserChar x = true) ∧
    (∀ x ∈ w2, isPySpace x = true)

theorem closer_not_space (x : Char) (h : isCloserChar x = true) :
    isPySpace x = false := by
  rcases (by simpa [isCloserChar] using h : x = '*' ∨ x = '/') with h | h <;>
    subst h <;> rfl

theorem closer_in_set (x : Char) (h : isCloserChar x = true) :
    (['/', '*'] : List Char).contains x = true := by
  rcases (by simpa [isCloserChar] using h : x = '*' ∨ x = '/') with h | h <;>
    subst h <;> rfl

theorem dropWhile_all_append {α} (p : α → Bool) (l1 l2 : List α)
    (h : ∀ x ∈ l1, p x = true) :
    (l1 ++ l2).dropWhile p = l2.dropWhile p := by
  induction l1 with
  | nil => rfl
  | cons a l ih =>
    have ha : p a = true := h a (List.mem_cons_self a l)
    simp only [List.cons_append, List.dropWhile_cons, ha, if_true]
    exact ih (fun x hx => h x (List.mem_cons_of_mem a hx))

theorem dropWhile_all {α} (p : α → Bool) (l : List α)
    (h : ∀ x ∈ l, p x = true) : l.dropWhile p = [] := by
  have := dropWhile_all_append p l [] h
  simpa using this

theorem dropWhile_cons_false {α} (p : α → Bool) (a : α) (l : List α)
    (h : p a = false) : (a :: l).dropWhile p = a :: l := by
  simp [List.dropWhile_cons, h]

theorem dropWhile_none {α} (p : α → Bool) (l : List α)
    (h : ∀ x ∈ l, p x = false) : l.dropWhile p = l := by
  cases l with
  | nil => rfl
  | cons a l => exact dropWhile_cons_false p a l (h a (List.mem_cons_self a l))

/-- Strip a middle whose characters all fail `p` out of a padding whose
characters all satisfy `p`. -/
theorem stripList_of_middle {p : Char → Bool} (w1 m w2 : List Char)
    (hw1 : ∀ x ∈ w1, p x = true) (hm : ∀ x ∈ m, p x = false)
    (hw2 : ∀ x ∈ w2, p x = true) :
    stripList p (w1 ++ m ++ w2) = m := by
  unfold stripList
  rw [List.append_assoc, dropWhile_all_append p w1 _ hw1]
  cases m with
  | nil =>
    rw [List.nil_append, dropWhile_all p w2 hw2]
    rfl
  | cons a m2 =>
    rw [List.cons_append, dropWhile_cons_false p a _ (hm a (List.mem_cons_self a m2))]
    rw [show (a :: (m2 ++ w2)).reverse = w2.reverse ++ (a :: m2).reverse by simp]
    rw [dropWhile_all_append p _ _ (fun x hx => hw2 x (List.mem_reverse.mp hx))]
    rw [dropWhile_none p _ (fun x hx => hm x (List.mem_reverse.mp hx))]
    rw [List.reverse_reverse]

theorem rstripList_all (p : Char → Bool) (l : List Char)
    (h : ∀ x ∈ l, p x = true) : rstripList p l = [] := by
  unfold rstripList
  rw [dropWhile_all p _ (fun x hx => h x (List.mem_reverse.mp hx))]
  rfl

/-- The strip pipeline of `parseLineForExpression`, at the level of
character lists. -/
def stripPipelineList (l : List Char) : List Char :=
  stripList isPySpace
    (rstripList (fun c => (['/', '*'] : List Char).contains c)
      (stripList isPySpace l))

theorem stripPipeline_eq (r : String) :
    pyStrip (pyRstripSet (pyStrip r) ['/', '*']) =
      String.mk (stripPipelineList r.data) := rfl

/-- A remainder of whitespace and/or trailing comment-closer characters
strips to nothing. -/
theorem stripPipelineList_blank (w1 c w2 : List Char)
    (hw1 : ∀ x ∈ w1, isPySpace x = true)
    (hc : ∀ x ∈ c, isCloserChar x = true)
    (hw2 : ∀ x ∈ w2, isPySpace x = true) :
    stripPipelineList (w1 ++ c ++ w2) = [] := by
  unfold stripPipelineList
  rw [stripList_of_middle w1 c w2 hw1
    (fun x hx => closer_not_space x (hc x hx)) hw2]
  rw [rstripList_all _ c (fun x hx => closer_in_set x (hc x hx))]
  rfl

/-- On a line whose text after the marker is nonempty but consists only
of whitespace and/or trailing comment-closer characters, the parser
returns the empty expression. -/
theorem parseLine_blank (line r : String)
    (hr : pyPartitionAfter line "SPDX-License-Identifier:" = r)
    (hne : r ≠ "") (hblank : blankOrCloserRemainder r) :
    parseLineForExpression line = some "" := by
  obtain ⟨w1, c, w2, hdata, hw1, hc, hw2⟩ := hblank
  simp only [parseLineForExpression]
  rw [hr, if_neg hne, stripPipeline_eq, hdata,
    stripPipelineList_blank w1 c w2 hw1 hc hw2]

/-- Scanning hits the first line whose parse succeeds: when every line
before index `k` parses to nothing, line `k` is inside the scan window
(counting lines from `lineno`) and parses to the empty expression, the
scan returns the empty expression without looking past line `k`. -/
theorem scanLines_hits_from (numLines : Nat) :
    ∀ (k lineno : Nat) (lines : List String), k < lines.length →
      (numLines = 0 ∨ lineno + k ≤ numLines) →
      (∀ l ∈ lines.take k, parseLineForExpression l = none) →
      parseLineForExpression (lines.getD k "") = some "" →
      scanLinesForTag numLines lineno lines = some ""
  | 0, lineno, [], hk, _, _, _ => by simp at hk
  | 0, lineno, l :: rest, _, hwin, _, hhit => by
    have hcond : ¬(0 < numLines ∧ numLines < lineno) := by
      rcases hwin with h | h <;> omega
    simp only [scanLinesForTag, if_neg hcond]
    rw [show parseLineForExpression l = some "" from by simpa using hhit]
  | k + 1, lineno, [], hk, _, _, _ => by simp at hk
  | k + 1, lineno, l :: rest, hk, hwin, hbefore, hhit => by
    have hl : parseLineForExpression l = none :=
      hbefore l (by simp [List.take_succ_cons])
    have hcond : ¬(0 < numLines ∧ numLines < lineno) := by
      rcases hwin with h | h <;> omega
    simp only [scanLinesForTag, if_neg hcond, hl]
    exact scanLines_hits_from numLines k (lineno + 1) rest
      (by simpa using hk)
      (by rcases hwin with h | h
          · exact Or.inl h
          · exact Or.inr (by omega))
      (fun x hx => hbefore x (by simp [List.take_succ_cons, hx]))
      (by simpa [List.getD_cons_succ] using hhit)

/-- Decomposition of a successful marker search: the line is some
text, then the separator, then the returned remainder. -/
theorem afterFirst_decomp (sep : List Char) :
    ∀ (l rest : List Char), afterFirst sep l = some rest →
      ∃ pre, l = pre ++ (sep ++ rest)
  | [], rest, h => by
    unfold afterFirst at h
    by_cases hp : sep.isPrefixOf ([] : List Char) = true
    · rw [if_pos hp] at h
      injection h with h
      have hsep : sep = [] := List.prefix_nil.mp (List.isPrefixOf_iff_prefix.mp hp)
      exact ⟨[], by simp [hsep, ← h]⟩
    · rw [if_neg hp] at h
      cases h
  | c :: cs, rest, h => by
    unfold afterFirst at h
    by_cases hp : sep.isPrefixOf (c :: cs) = true
    · rw [if_pos hp] at h
      injection h with h
      obtain ⟨t, ht⟩ := List.isPrefixOf_iff_prefix.mp hp
      have h2 : t = rest := by
        rw [← ht, List.drop_left] at h
        exact h
      exact ⟨[], by rw [List.nil_append, ← ht, h2]⟩
    · rw [if_neg hp] at h
      obtain ⟨pre, hpre⟩ := afterFirst_decomp sep cs rest h
      exact ⟨c :: pre, by rw [List.cons_append, hpre]⟩

/-- The marker ends in a colon, so on a newline-terminated line it
always has at least the newline after it: the remainder is nonempty. -/
theorem remainder_ne_empty_of_newline (line r : String)
    (hr : afterFirst "SPDX-License-Identifier:".data line.data = some r.data)
    (hnl : line.data.getLast? = some '\n') : r ≠ "" := by
  intro hempty
  subst hempty
  obtain ⟨pre, hpre⟩ := afterFirst_decomp _ _ _ hr
  rw [hpre] at hnl
  rw [show ("" : String).data = [] from rfl, List.append_nil] at hnl
  rw [List.getLast?_append_of_ne_nil pre (by decide)] at hnl
  exact absurd hnl (by decide)

/-- A successful marker search determines `partition(...)[2]`. -/
theorem pyPartitionAfter_of_afterFirst (line r : String)
    (h : afterFirst "SPDX-License-Identifier:".data line.data = some r.data) :
    pyPartitionAfter line "SPDX-License-Identifier:" = r := by
  unfold pyPartitionAfter
  rw [h]

/-- A line not containing the marker at all yields no parse. -/
theorem parseLine_none_of_no_marker (line : String)
    (h : afterFirst "SPDX-License-Identifier:".data line.data = none) :
    parseLineForExpression line = none := by
  simp only [parseLineForExpression, pyPartitionAfter, h]
  rfl

/-- C10: if the first line (within the scan window) containing the
marker has only whitespace and/or trailing comment-closer characters
after the marker, the scan returns the empty-string expression and
stops at that line, so later lines are never examined even if one
carries a valid tag; and because `scanPackage` treats an empty
expression as no-expression-found, such a File keeps
`concludedLicense = "NOASSERTION"` and an empty `licenseInfoInFile`.
Lines are the ones text-mode iteration yields; the hypothesis `hnl`
records that line `k` is newline-terminated, true of every line of a
file except an unterminated final line — and then the marker, ending in
a colon, always has at least that newline after it on the line. -/
theorem C10_blank_tag_line (numLines k : Nat) (lines : List String)
    (r : String)
    (hk : k < lines.length)
    (hwin : numLines = 0 ∨ k + 1 ≤ numLines)
    (hbefore : ∀ l ∈ lines.take k,
      afterFirst "SPDX-License-Identifier:".data l.data = none)
    (hr : afterFirst "SPDX-License-Identifier:".data (lines.getD k "").data
      = some r.data)
    (hnl : (lines.getD k "").data.getLast? = some '\n')
    (hblank : blankOrCloserRemainder r) :
    scanLinesForTag numLines 1 lines = some "" ∧
    (∀ tail : List String,
      scanLinesForTag numLines 1 (lines.take (k + 1) ++ tail) = some "") ∧
    (∀ (fs : FS) (filePath : String) (lf : FSFile), fs filePath = some lf →
      lf.text = some lines → getExpressionData fs filePath numLines = some "") ∧
    (∀ (fs : FS) (scanCfg : ScannerConfig) (pkgCfg : PackageConfig)
        (pkg : Package) (f : File),
      scanPackage fs scanCfg pkgCfg = some pkg → f ∈ pkg.files →
      getExpressionData fs f.abspath scanCfg.numLinesScanned = some "" →
      f.concludedLicense = "NOASSERTION" ∧ f.licenseInfoInFile = []) := by
  have hne : r ≠ "" := remainder_ne_empty_of_newline _ r hr hnl
  have hpp : pyPartitionAfter (lines.getD k "") "SPDX-License-Identifier:" = r :=
    pyPartitionAfter_of_afterFirst _ r hr
  have hhit : parseLineForExpression (lines.getD k "") = some "" :=
    parseLine_blank _ r hpp hne hblank
  have hbefore2 : ∀ l ∈ lines.take k, parseLineForExpression l = none :=
    fun l hl => parseLine_none_of_no_marker l (hbefore l hl)
  have hwin1 : numLines = 0 ∨ 1 + k ≤ numLines := by
    rcases hwin with h | h
    · exact Or.inl h
    · exact Or.inr (by omega)
  have part1 : scanLinesForTag numLines 1 lines = some "" :=
    scanLines_hits_from numLines k 1 lines hk hwin1 hbefore2 hhit
  refine ⟨part1, ?_, ?_, ?_⟩
  · intro tail
    have hlen : (lines.take (k + 1)).length = k + 1 := by
      rw [List.length_take]
      omega
    have hk2 : k < (lines.take (k + 1) ++ tail).length := by
      rw [List.length_append, hlen]
      omega
    have hb2 : ∀ l ∈ (lines.take (k + 1) ++ tail).take k,
        parseLineForExpression l = none := by
      intro l hl
      apply hbefore2
      rw [List.take_append_of_le_length (by omega : k ≤ (lines.take (k + 1)).length),
        List.take_take] at hl
      have hmin : k ⊓ (k + 1) = k := by omega
      rwa [hmin] at hl
    have hg2 : (lines.take (k + 1) ++ tail).getD k "" = lines.getD k "" := by
      rw [List.getD_eq_getElem?_getD, List.getD_eq_getElem?_getD,
        List.getElem?_append, if_pos (by omega : k < (lines.take (k + 1)).length),
        List.getElem?_take, if_pos (by omega : k < k + 1)]
    exact scanLines_hits_from numLines k 1 _ hk2 hwin1 hb2 (by rw [hg2]; exact hhit)
  · intro fs filePath lf h1 h2
    unfold getExpressionData
    simp only [h1, h2]
    exact part1
  · intro fs scanCfg pkgCfg pkg f hp hf hged
    cases hfs : fs pkgCfg.fileListPath with
    | none => rw [scanPackage_none hfs] at hp; cases hp
    | some lf =>
      cases htxt : lf.text with
      | none =>
        unfold scanPackage at hp
        simp [hfs, htxt] at hp
      | some flines =>
        obtain ⟨pkg2, hp2, hfiles⟩ :=
          @scanPackage_files fs scanCfg pkgCfg lf flines hfs htxt
        rw [hp] at hp2
        cases hp2
        rw [hfiles] at hf
        obtain ⟨ip, hip, rfl⟩ := List.mem_map.mp hf
        have hap : (buildFile fs scanCfg pkgCfg.basedir ip.2 ip.1).abspath
            = resolvePath pkgCfg.basedir ip.2 :=
          buildFile_abspath fs scanCfg pkgCfg.basedir ip.2 ip.1
        rw [hap] at hged
        unfold buildFile
        rw [hged]
        exact buildFileWith_license_default scanCfg ip.2 _ ip.1 _ _ (Or.inl rfl)

/-- The concrete file of the C10 witness: a marker-free first line, a
tag line whose remainder `" */\n"` strips to nothing, and a later real
tag that is never reached. -/
def linesC10 : List String :=
  ["hello\n", "// SPDX-License-Identifier: */\n",
   "// SPDX-License-Identifier: MIT\n"]

/-- Witness for C10 at `linesC10`, line index 1, window 20. -/
theorem C10_blank_tag_line_witness :
    scanLinesForTag 20 1 linesC10 = some "" ∧
    (∀ tail : List String,
      scanLinesForTag 20 1 (linesC10.take 2 ++ tail) = some "") ∧
    (∀ (fs : FS) (filePath : String) (lf : FSFile), fs filePath = some lf →
      lf.text = some linesC10 → getExpressionData fs filePath 20 = some "") ∧
    (∀ (fs : FS) (scanCfg : ScannerConfig) (pkgCfg : PackageConfig)
        (pkg : Package) (f : File),
      scanPackage fs scanCfg pkgCfg = some pkg → f ∈ pkg.files →
      getExpressionData fs f.abspath scanCfg.numLinesScanned = some "" →
      f.concludedLicense = "NOASSERTION" ∧ f.licenseInfoInFile = []) :=
  C10_blank_tag_line 20 1 linesC10 " */\n" (by decide) (by decide) (by decide)
    (by decide) (by decide)
    ⟨[' '], ['*', '/'], ['\n'], by decide, by decide, by decide, by decide⟩

/-! ## Claim C5 -/

/-- C5: with two finalized Packages carrying distinct SPDX IDs (as the
pipeline's sources and builds packages do) and one file each,
`makeSPDXDocument` registers both Packages in order and appends exactly
three relationships — two `DESCRIBES` edges from the document element
and one `GENERATED_FROM` edge from builds to sources — and the
projected JSON document has exactly 2 packages, 2 files, 3
relationships, and `documentDescribes` listing both package IDs. -/
theorem C5_document_assembly (sbomCfg : SBOMConfig) (srcPkg buildPkg : Package)
    (hne : srcPkg.cfg.spdxID ≠ buildPkg.cfg.spdxID)
    (h1 : srcPkg.files.length = 1) (h2 : buildPkg.files.length = 1) :
    (makeSPDXDocument sbomCfg srcPkg buildPkg).pkgs =
      [(srcPkg.cfg.spdxID, srcPkg), (buildPkg.cfg.spdxID, buildPkg)] ∧
    (makeSPDXDocument sbomCfg srcPkg buildPkg).relationships =
      [{ refA := "SPDXRef-DOCUMENT", refB := srcPkg.cfg.spdxID,
         rlnType := "DESCRIBES" },
       { refA := "SPDXRef-DOCUMENT", refB := buildPkg.cfg.spdxID,
         rlnType := "DESCRIBES" },
       { refA := buildPkg.cfg.spdxID, refB := srcPkg.cfg.spdxID,
         rlnType := "GENERATED_FROM" }] ∧
    (makeSPDXJSONDocument (makeSPDXDocument sbomCfg srcPkg buildPkg)).packages.length
      = 2 ∧
    (makeSPDXJSONDocument (makeSPDXDocument sbomCfg srcPkg buildPkg)).files.length
      = 2 ∧
    (makeSPDXJSONDocument (makeSPDXDocument sbomCfg srcPkg buildPkg)).relationships.length
      = 3 ∧
    (makeSPDXJSONDocument (makeSPDXDocument sbomCfg srcPkg buildPkg)).documentDescribes
      = [srcPkg.cfg.spdxID, buildPkg.cfg.spdxID] := by
  have hpkgs : (makeSPDXDocument sbomCfg srcPkg buildPkg).pkgs =
      [(srcPkg.cfg.spdxID, srcPkg), (buildPkg.cfg.spdxID, buildPkg)] := by
    unfold makeSPDXDocument dictInsert
    simp [hne]
  have hrel : (makeSPDXDocument sbomCfg srcPkg buildPkg).relationships =
      [{ refA := "SPDXRef-DOCUMENT", refB := srcPkg.cfg.spdxID,
         rlnType := "DESCRIBES" },
       { refA := "SPDXRef-DOCUMENT", refB := buildPkg.cfg.spdxID,
         rlnType := "DESCRIBES" },
       { refA := buildPkg.cfg.spdxID, refB := srcPkg.cfg.spdxID,
         rlnType := "GENERATED_FROM" }] := by
    unfold makeSPDXDocument
    simp
  refine ⟨hpkgs, hrel, ?_, ?_, ?_, ?_⟩ <;>
    · unfold makeSPDXJSONDocument
      rw [hpkgs, hrel]
      simp [makeSPDXJSONPackage, apply_ite DocumentJSON.packages,
        apply_ite DocumentJSON.files, apply_ite DocumentJSON.relationships,
        apply_ite DocumentJSON.documentDescribes, ite_self, h1, h2]

/-- The sources package of the C5 witness. -/
def srcPkgC5 : Package :=
  { cfg := { spdxID := "SPDXRef-Package-sources" }, files := [fileA] }

/-- The builds package of the C5 witness. -/
def buildPkgC5 : Package :=
  { cfg := { spdxID := "SPDXRef-Package-builds" }, files := [fileB] }

/-- Witness for C5 at one concrete sources package and one concrete
builds package, holding one file each. -/
theorem C5_document_assembly_witness :
    (makeSPDXDocument {} srcPkgC5 buildPkgC5).pkgs =
      [(srcPkgC5.cfg.spdxID, srcPkgC5), (buildPkgC5.cfg.spdxID, buildPkgC5)] ∧
    (makeSPDXDocument {} srcPkgC5 buildPkgC5).relationships =
      [{ refA := "SPDXRef-DOCUMENT", refB := srcPkgC5.cfg.spdxID,
         rlnType := "DESCRIBES" },
       { refA := "SPDXRef-DOCUMENT", refB := buildPkgC5.cfg.spdxID,
         rlnType := "DESCRIBES" },
       { refA := buildPkgC5.cfg.spdxID, refB := srcPkgC5.cfg.spdxID,
         rlnType := "GENERATED_FROM" }] ∧
    (makeSPDXJSONDocument (makeSPDXDocument {} srcPkgC5 buildPkgC5)).packages.length
      = 2 ∧
    (makeSPDXJSONDocument (makeSPDXDocument {} srcPkgC5 buildPkgC5)).files.length
      = 2 ∧
    (makeSPDXJSONDocument (makeSPDXDocument {} srcPkgC5 buildPkgC5)).relationships.length
      = 3 ∧
    (makeSPDXJSONDocument (makeSPDXDocument {} srcPkgC5 buildPkgC5)).documentDescribes
      = [srcPkgC5.cfg.spdxID, buildPkgC5.cfg.spdxID] :=
  C5_document_assembly {} srcPkgC5 buildPkgC5 (by decide) (by decide) (by decide)

/-! ## Claim C8 -/

/-- A token collected for a package by the other-licensing-info
section: the package's whole declared license string, or one of its
file-derived tokens, starting with `LicenseRef-`. -/
def pkgHasRef (pkg : Package) (y : String) : Prop :=
  (y = pkg.cfg.declaredLicense ∨ y ∈ pkg.licenseInfoFromFiles) ∧
    pyStartsWith y "LicenseRef-" = true

theorem mem_addToSet {s : List String} {x y : String} :
    y ∈ addToSet s x ↔ y ∈ s ∨ y = x := by
  by_cases hx : x ∈ s
  · rw [addToSet, if_pos hx]
    constructor
    · exact Or.inl
    · rintro (h | rfl)
      · exact h
      · exact hx
  · rw [addToSet, if_neg hx]
    simp

theorem nodup_addToSet {s : List String} {x : String} (h : s.Nodup) :
    (addToSet s x).Nodup := by
  by_cases hx : x ∈ s
  · rwa [addToSet, if_pos hx]
  · rw [addToSet, if_neg hx]
    refine List.Nodup.append h (List.nodup_singleton x) ?_
    intro a ha hb
    rw [List.mem_singleton] at hb
    exact hx (hb ▸ ha)

theorem mem_addDeclaredRef (acc : List String) (pkg : Package) (y : String) :
    y ∈ addDeclaredRef acc pkg ↔
      y ∈ acc ∨ (y = pkg.cfg.declaredLicense ∧
        pyStartsWith y "LicenseRef-" = true) := by
  unfold addDeclaredRef
  by_cases hd : pyStartsWith pkg.cfg.declaredLicense "LicenseRef-" = true
  · rw [if_pos hd, mem_addToSet]
    constructor
    · rintro (h | rfl)
      · exact Or.inl h
      · exact Or.inr ⟨rfl, hd⟩
    · rintro (h | ⟨rfl, _⟩)
      · exact Or.inl h
      · exact Or.inr rfl
  · rw [if_neg hd]
    constructor
    · exact Or.inl
    · rintro (h | ⟨rfl, hy⟩)
      · exact h
      · exact absurd hy hd

theorem mem_addFileRefs (acc : List String) (pkg : Package) (y : String) :
    y ∈ addFileRefs acc pkg ↔
      y ∈ acc ∨ (y ∈ pkg.licenseInfoFromFiles ∧
        pyStartsWith y "LicenseRef-" = true) := by
  unfold addFileRefs
  induction pkg.licenseInfoFromFiles generalizing acc with
  | nil => simp
  | cons t ts ih =>
    rw [List.foldl_cons, ih]
    by_cases ht : pyStartsWith t "LicenseRef-" = true
    · rw [if_pos ht]
      constructor
      · rintro (h | h)
        · rcases mem_addToSet.mp h with h | rfl
          · exact Or.inl h
          · exact Or.inr ⟨List.mem_cons_self _ _, ht⟩
        · exact Or.inr ⟨List.mem_cons_of_mem _ h.1, h.2⟩
      · rintro (h | ⟨hm, hy⟩)
        · exact Or.inl (mem_addToSet.mpr (Or.inl h))
        · rcases List.mem_cons.mp hm with rfl | hm
          · exact Or.inl (mem_addToSet.mpr (Or.inr rfl))
          · exact Or.inr ⟨hm, hy⟩
    · rw [if_neg ht]
      constructor
      · rintro (h | h)
        · exact Or.inl h
        · exact Or.inr ⟨List.mem_cons_of_mem _ h.1, h.2⟩
      · rintro (h | ⟨hm, hy⟩)
        · exact Or.inl h
        · rcases List.mem_cons.mp hm with rfl | hm
          · exact absurd hy ht
          · exact Or.inr ⟨hm, hy⟩

theorem nodup_addDeclaredRef (acc : List String) (pkg : Package)
    (h : acc.Nodup) : (addDeclaredRef acc pkg).Nodup := by
  unfold addDeclaredRef
  split
  · exact nodup_addToSet h
  · exact h

theorem nodup_addFileRefs (acc : List String) (pkg : Package)
    (h : acc.Nodup) : (addFileRefs acc pkg).Nodup := by
  unfold addFileRefs
  induction pkg.licenseInfoFromFiles generalizing acc with
  | nil => exact h
  | cons t ts ih =>
    rw [List.foldl_cons]
    apply ih
    split
    · exact nodup_addToSet h
    · exact h

theorem mem_collectAux (pkgs : List (String × Package)) (acc : List String)
    (y : String) :
    y ∈ pkgs.foldl (fun acc kv => addFileRefs (addDeclaredRef acc kv.2) kv.2) acc ↔
      y ∈ acc ∨ ∃ kv ∈ pkgs, pkgHasRef kv.2 y := by
  induction pkgs generalizing acc with
  | nil => simp
  | cons kv rest ih =>
    rw [List.foldl_cons, ih, mem_addFileRefs, mem_addDeclaredRef]
    constructor
    · rintro (((h | ⟨hd, hy⟩) | ⟨hm, hy⟩) | ⟨kv2, hkv2, hp⟩)
      · exact Or.inl h
      · exact Or.inr ⟨kv, List.mem_cons_self kv rest, ⟨Or.inl hd, hy⟩⟩
      · exact Or.inr ⟨kv, List.mem_cons_self kv rest, ⟨Or.inr hm, hy⟩⟩
      · exact Or.inr ⟨kv2, List.mem_cons_of_mem kv hkv2, hp⟩
    · rintro (h | ⟨kv2, hkv2, ⟨hd | hm, hy⟩⟩)
      · exact Or.inl (Or.inl (Or.inl h))
      · rcases List.mem_cons.mp hkv2 with rfl | hkv2
        · exact Or.inl (Or.inl (Or.inr ⟨hd, hy⟩))
        · exact Or.inr ⟨kv2, hkv2, ⟨Or.inl hd, hy⟩⟩
      · rcases List.mem_cons.mp hkv2 with rfl | hkv2
        · exact Or.inl (Or.inr ⟨hm, hy⟩)
        · exact Or.inr ⟨kv2, hkv2, ⟨Or.inr hm, hy⟩⟩

theorem mem_collectLicenseRefs (doc : Document) (y : String) :
    y ∈ collectLicenseRefs doc ↔ ∃ kv ∈ doc.pkgs, pkgHasRef kv.2 y := by
  unfold collectLicenseRefs
  rw [mem_collectAux]
  simp

theorem nodup_collectLicenseRefs (doc : Document) :
    (collectLicenseRefs doc).Nodup := by
  unfold collectLicenseRefs
  generalize hacc : ([] : List String) = acc
  have hnd : acc.Nodup := hacc ▸ List.nodup_nil
  clear hacc
  induction doc.pkgs generalizing acc with
  | nil => exact hnd
  | cons kv rest ih =>
    rw [List.foldl_cons]
    exact ih _ (nodup_addFileRefs _ _ (nodup_addDeclaredRef _ _ hnd))

/-- The package-section fold of the JSON projection never touches the
`hasExtractedLicensingInfos` field. -/
theorem foldl_hasExtracted (pkgs : List (String × Package)) (dj : DocumentJSON) :
    (pkgs.foldl
      (fun dj kv =>
        let pf := makeSPDXJSONPackage kv.2 dj.files
        { dj with
          documentDescribes := dj.documentDescribes ++ [kv.1],
          packages := dj.packages ++ [pf.1],
          files := pf.2 })
      dj).hasExtractedLicensingInfos = dj.hasExtractedLicensingInfos := by
  induction pkgs generalizing dj with
  | nil => rfl
  | cons kv rest ih =>
    rw [List.foldl_cons, ih]

/-- The `hasExtractedLicensingInfos` key is present exactly when the
other-licensing-info list is nonempty, and then holds that list. -/
theorem makeSPDXJSONDocument_hasExtracted (doc : Document) :
    (makeSPDXJSONDocument doc).hasExtractedLicensingInfos =
      if (makeSPDXJSONOtherLicensingInfo doc).length > 0
      then some (makeSPDXJSONOtherLicensingInfo doc) else none := by
  unfold makeSPDXJSONDocument
  by_cases hl : (makeSPDXJSONOtherLicensingInfo doc).length > 0
  · rw [if_pos hl, if_pos hl]
  · rw [if_neg hl, if_neg hl]
    exact foldl_hasExtracted doc.pkgs _

/-- The license IDs of the other-licensing-info entries are the sorted
collected `LicenseRef-` tokens. -/
theorem otherLic_map_licenseId (doc : Document) :
    (makeSPDXJSONOtherLicensingInfo doc).map OtherLicJSON.licenseId =
      pysorted (collectLicenseRefs doc) := by
  unfold makeSPDXJSONOtherLicensingInfo
  rw [List.map_map]
  have h : (OtherLicJSON.licenseId ∘ fun lr =>
      ({ licenseId := lr,
         comment := "Corresponds to the license ID `" ++ lr ++
           "` detected in an SPDX-License-Identifier: tag.",
         extractedText := lr, name := lr } : OtherLicJSON)) = id :=
    funext fun lr => rfl
  rw [h, List.map_id]

/-- What the code actually keys the section on: some package whose
whole declared license string starts with `LicenseRef-`, or with a
file-derived token starting with `LicenseRef-`. -/
def docHasRef (doc : Document) : Prop :=
  ∃ kv ∈ doc.pkgs,
    pyStartsWith kv.2.cfg.declaredLicense "LicenseRef-" = true ∨
    ∃ t ∈ kv.2.licenseInfoFromFiles, pyStartsWith t "LicenseRef-" = true

/-- The claim's broader condition: some `LicenseRef-` token appears
anywhere in a package's declared license expression (tokenised the way
the scanner itself tokenises expressions) or among its file-derived
tokens. -/
def claimTokenCondition (doc : Document) : Prop :=
  ∃ kv ∈ doc.pkgs,
    (∃ t ∈ splitExpression kv.2.cfg.declaredLicense,
      pyStartsWith t "LicenseRef-" = true) ∨
    ∃ t ∈ kv.2.licenseInfoFromFiles, pyStartsWith t "LicenseRef-" = true

theorem collect_ne_nil_iff (doc : Document) :
    collectLicenseRefs doc ≠ [] ↔ docHasRef doc := by
  constructor
  · intro h
    obtain ⟨y, hy⟩ := List.exists_mem_of_ne_nil _ h
    obtain ⟨kv, hkv, hd | hm, hs⟩ := (mem_collectLicenseRefs doc y).mp hy
    · exact ⟨kv, hkv, Or.inl (hd ▸ hs)⟩
    · exact ⟨kv, hkv, Or.inr ⟨y, hm, hs⟩⟩
  · rintro ⟨kv, hkv, hd | ⟨t, ht, hts⟩⟩
    · exact List.ne_nil_of_mem ((mem_collectLicenseRefs doc _).mpr
        ⟨kv, hkv, Or.inl rfl, hd⟩)
    · exact List.ne_nil_of_mem ((mem_collectLicenseRefs doc t).mpr
        ⟨kv, hkv, Or.inr ht, hts⟩)

/-- The package of the C8 counterexample: its declared license contains
the token `LicenseRef-custom` inside an `AND` expression. -/
def pkgC8 : Package :=
  { cfg := { spdxID := "SPDXRef-Package-sources",
             declaredLicense := "MIT AND LicenseRef-custom" } }

/-- The document of the C8 counterexample. -/
def docC8 : Document :=
  { cfg := { name := "doc", nspace := "ns" },
    pkgs := [("SPDXRef-Package-sources", pkgC8)] }

/-- C8 counterexample: `LicenseRef-custom` appears as a token of the
package's declared license, so the claim requires the
`hasExtractedLicensingInfos` key, yet the projected document lacks it —
the writer only tests whether the whole declared license string starts
with `LicenseRef-`. -/
theorem C8_counterexample :
    claimTokenCondition docC8 ∧
    (makeSPDXJSONDocument docC8).hasExtractedLicensingInfos = none := by
  constructor
  · exact ⟨("SPDXRef-Package-sources", pkgC8), by decide, Or.inl (by decide)⟩
  · rfl

/-- C8 amended: the `hasExtractedLicensingInfos` key is present exactly
when some package's whole declared license string starts with
`LicenseRef-` or some file-derived token does (a `LicenseRef-` token
buried inside a declared license expression does not count); the key,
when present, holds one entry per distinct such token, sorted
lexicographically, with placeholder text equal to the token; and the
section is independent of the order in which the packages (hence the
tokens) are visited. -/
theorem C8_extracted_licensing (doc : Document) :
    ((makeSPDXJSONDocument doc).hasExtractedLicensingInfos ≠ none ↔
      docHasRef doc) ∧
    ((makeSPDXJSONDocument doc).hasExtractedLicensingInfos = none ∨
      (makeSPDXJSONDocument doc).hasExtractedLicensingInfos =
        some (makeSPDXJSONOtherLicensingInfo doc)) ∧
    ((makeSPDXJSONOtherLicensingInfo doc).map OtherLicJSON.licenseId).Sorted pyle ∧
    ((makeSPDXJSONOtherLicensingInfo doc).map OtherLicJSON.licenseId).Nodup ∧
    (∀ t, t ∈ (makeSPDXJSONOtherLicensingInfo doc).map OtherLicJSON.licenseId ↔
      ∃ kv ∈ doc.pkgs, pkgHasRef kv.2 t) ∧
    (∀ e ∈ makeSPDXJSONOtherLicensingInfo doc,
      e.extractedText = e.licenseId ∧ e.name = e.licenseId) ∧
    (∀ doc2 : Document, doc2.pkgs.Perm doc.pkgs →
      makeSPDXJSONOtherLicensingInfo doc2 = makeSPDXJSONOtherLicensingInfo doc) := by
  have hlen : (makeSPDXJSONOtherLicensingInfo doc).length
      = (collectLicenseRefs doc).length := by
    have h1 : (makeSPDXJSONOtherLicensingInfo doc).length =
        ((makeSPDXJSONOtherLicensingInfo doc).map OtherLicJSON.licenseId).length :=
      (List.length_map _ _).symm
    rw [h1, otherLic_map_licenseId]
    exact (pysorted_perm _).length_eq
  refine ⟨?_, ?_, ?_, ?_, ?_, ?_, ?_⟩
  · rw [makeSPDXJSONDocument_hasExtracted, ← collect_ne_nil_iff]
    by_cases hl : (makeSPDXJSONOtherLicensingInfo doc).length > 0
    · simp only [if_pos hl]
      have : collectLicenseRefs doc ≠ [] := by
        intro h
        rw [h, List.length_nil] at hlen
        omega
      simp [this]
    · simp only [if_neg hl]
      have : collectLicenseRefs doc = [] := by
        rcases Nat.eq_zero_or_pos (makeSPDXJSONOtherLicensingInfo doc).length
          with h | h
        · rw [h] at hlen
          exact List.length_eq_zero.mp hlen.symm
        · exact absurd h hl
      simp [this]
  · rw [makeSPDXJSONDocument_hasExtracted]
    by_cases hl : (makeSPDXJSONOtherLicensingInfo doc).length > 0
    · exact Or.inr (if_pos hl)
    · exact Or.inl (if_neg hl)
  · rw [otherLic_map_licenseId]
    exact pysorted_sorted _
  · rw [otherLic_map_licenseId]
    exact ((pysorted_perm _).nodup_iff).mpr (nodup_collectLicenseRefs doc)
  · intro t
    rw [otherLic_map_licenseId, (pysorted_perm _).mem_iff,
      mem_collectLicenseRefs]
  · intro e he
    unfold makeSPDXJSONOtherLicensingInfo at he
    obtain ⟨lr, _, rfl⟩ := List.mem_map.mp he
    exact ⟨rfl, rfl⟩
  · intro doc2 hperm
    unfold makeSPDXJSONOtherLicensingInfo
    have h : pysorted (collectLicenseRefs doc2)
        = pysorted (collectLicenseRefs doc) := by
      apply pysorted_eq_of_perm
      apply (List.perm_ext_iff_of_nodup (nodup_collectLicenseRefs doc2)
        (nodup_collectLicenseRefs doc)).mpr
      intro a
      rw [mem_collectLicenseRefs, mem_collectLicenseRefs]
      constructor
      · rintro ⟨kv, hkv, hp⟩
        exact ⟨kv, hperm.mem_iff.mp hkv, hp⟩
      · rintro ⟨kv, hkv, hp⟩
        exact ⟨kv, hperm.mem_iff.mpr hkv, hp⟩
    rw [h]
